import Mathlib

/-!
Verification of the maci domain objects (src/maci/domainobjs/ts/index.ts).

The TypeScript classes PrivKey, PubKey, Keypair, Message, Command and
StateLeaf are shallowly embedded below.  Numeric values (snark bigints)
are embedded as Lean integers, JS strings as Lean strings whose char
list models the sequence of UTF-16 code units (every character that
matters here is ASCII).  A JS method that can throw is embedded as a
function into Option.  The external maci-crypto library is out of
scope of the repository; where a claim depends on it, the relevant
routine is modelled from the spec and marked as such in its doc
comment.
-/

namespace Daisy

/-- Field modulus of the snark scalar field, as a natural number
    (the constant SNARK_FIELD_SIZE imported from maci-crypto). -/
def SNARK_FIELD_SIZE_N : Nat :=
  21888242871839275222246405745257275088548364400416034343698204186575808495617

/-- Field modulus of the snark scalar field, as an integer: all bigint
    comparisons in the source compare against this bound. -/
def SNARK_FIELD_SIZE : Int :=
  21888242871839275222246405745257275088548364400416034343698204186575808495617

theorem SNARK_FIELD_SIZE_eq_cast : ((SNARK_FIELD_SIZE_N : Int) = SNARK_FIELD_SIZE) := rfl

theorem SNARK_FIELD_SIZE_pos : 0 < SNARK_FIELD_SIZE := by decide

/-- JS s.slice(n): drop the first n code units of the string. -/
def strDrop (s : String) (n : Nat) : String := String.mk (s.data.drop n)

/-- JS s.startsWith(p). -/
def strStartsWith (s p : String) : Bool := p.data.isPrefixOf s.data

/-- Value of one hexadecimal digit character, as accepted by the JS
    bigint parser for 0x literals; none for a non-hex character. -/
def hexCharVal? (c : Char) : Option Nat :=
  if '0' ≤ c ∧ c ≤ '9' then some (c.toNat - Char.toNat '0')
  else if 'a' ≤ c ∧ c ≤ 'f' then some (c.toNat - Char.toNat 'a' + 10)
  else if 'A' ≤ c ∧ c ≤ 'F' then some (c.toNat - Char.toNat 'A' + 10)
  else none

/-- Lowercase hexadecimal digit character for a value below 16, as
    produced by JS Number/bigint toString(16). -/
def natToHexChar (d : Nat) : Char :=
  if d < 10 then Char.ofNat (Char.toNat '0' + d)
  else Char.ofNat (Char.toNat 'a' + d - 10)

/-- Values of a list of hex digit characters, most significant first;
    none if any character is not a hex digit. -/
def hexVals? : List Char → Option (List Nat)
  | [] => some []
  | c :: cs =>
    match hexCharVal? c, hexVals? cs with
    | some d, some ds => some (d :: ds)
    | _, _ => none

/-- JS bigInt of a 0x-prefixed string: parses a nonempty string of hex
    digits, most significant first; none (a thrown SyntaxError in JS)
    otherwise. -/
def hexStringToNat? (s : String) : Option Nat :=
  if s.data.isEmpty then none
  else (hexVals? s.data).map fun ds => Nat.ofDigits 16 ds.reverse

/-- JS toString(16) of a nonnegative bigint: lowercase hex digits, no
    leading zeros, and the single digit 0 for zero. -/
def natToHexString (n : Nat) : String :=
  if n = 0 then "0"
  else String.mk (((Nat.digits 16 n).map natToHexChar).reverse)

/-- JS toString(16) of a bigint, with a leading minus sign when the
    value is negative. -/
def intToHexString (i : Int) : String :=
  if i < 0 then "-" ++ natToHexString i.natAbs else natToHexString i.toNat

theorem hexCharVal_natToHexChar : ∀ d : Nat, d < 16 → hexCharVal? (natToHexChar d) = some d := by
  decide

theorem hexVals_map_natToHexChar (l : List Nat) (h : ∀ d ∈ l, d < 16) :
    hexVals? (l.map natToHexChar) = some l := by
  induction l with
  | nil => rfl
  | cons d ds ih =>
    have hd : d < 16 := h d (List.mem_cons_self d ds)
    have hds : ∀ x ∈ ds, x < 16 := fun x hx => h x (List.mem_cons_of_mem d hx)
    simp [hexVals?, hexCharVal_natToHexChar d hd, ih hds]

/-- The hex codec round-trips on every natural number. -/
theorem hexStringToNat_natToHexString (n : Nat) :
    hexStringToNat? (natToHexString n) = some n := by
  by_cases h0 : n = 0
  · subst h0; decide
  · have hne : Nat.digits 16 n ≠ [] := by
      simpa [Nat.digits_ne_nil_iff_ne_zero] using h0
    have hlt : ∀ d ∈ (Nat.digits 16 n).reverse, d < 16 := by
      intro d hd
      exact Nat.digits_lt_base (by norm_num) (List.mem_reverse.mp hd)
    have hrev : ((Nat.digits 16 n).map natToHexChar).reverse
        = ((Nat.digits 16 n).reverse).map natToHexChar := by
      simp [List.map_reverse]
    have hvals : hexVals? (((Nat.digits 16 n).map natToHexChar).reverse)
        = some ((Nat.digits 16 n).reverse) := by
      rw [hrev]
      exact hexVals_map_natToHexChar _ hlt
    have hnonempty : (((Nat.digits 16 n).map natToHexChar).reverse).isEmpty = false := by
      cases hd : Nat.digits 16 n with
      | nil => exact absurd hd hne
      | cons a l => simp [hd, List.isEmpty_iff]
    simp [natToHexString, h0, hexStringToNat?, hnonempty, hvals, Nat.ofDigits_digits]

/-- Embedding of the PrivKey class: it wraps one raw bigint. -/
structure PrivKey where
  rawPrivKey : Int
deriving DecidableEq

/-- PrivKey.serialize: the literal "macisk." followed by the hex of the
    raw value (source line 50). -/
def PrivKey.serialize (k : PrivKey) : String :=
  "macisk." ++ intToHexString k.rawPrivKey

/-- PrivKey.unserialize (source line 54): slices off the first 7 code
    units of s unconditionally (the length of "macisk.") and parses the
    remainder as hex via bigInt of a 0x string; the parse throws on a
    non-hex remainder, modelled as none. -/
def PrivKey.unserialize (s : String) : Option PrivKey :=
  (hexStringToNat? (strDrop s 7)).map fun n => ⟨(n : Int)⟩

/-- PrivKey.isValidSerializedPrivKey (source line 59): checks the
    "macisk." marker with startsWith, slices off 7 code units, and
    tries to parse the remainder, comparing the value against
    SNARK_FIELD_SIZE; a parse failure is caught and counts as invalid. -/
def PrivKey.isValidSerializedPrivKey (s : String) : Bool :=
  let correctStart := strStartsWith s "macisk."
  let validValue :=
    match hexStringToNat? (strDrop s 7) with
    | some v => decide ((v : Int) < SNARK_FIELD_SIZE)
    | none => false
  correctStart && validValue

/-- Embedding of the PubKey class: rawPubKey is the two-element array
    of bigint coordinates, stored here as the fields x and y. -/
structure PubKey where
  x : Int
  y : Int
deriving DecidableEq

/-- The asserting PubKey constructor (source line 80): requires the
    array to have exactly two entries and each entry to be below
    SNARK_FIELD_SIZE; there is no lower-bound check, so negative
    entries pass.  An assertion failure is modelled as none. -/
def PubKey.mk? (rawPubKey : List Int) : Option PubKey :=
  match rawPubKey with
  | [a, b] =>
    if a < SNARK_FIELD_SIZE ∧ b < SNARK_FIELD_SIZE then some ⟨a, b⟩ else none
  | _ => none

/-- PubKey.asArray: the coordinates in the fixed order x then y. -/
def PubKey.asArray (p : PubKey) : List Int := [p.x, p.y]

/-- Modelled from the spec: packPoint from the external maci-crypto
    library, a compression of a curve point into bytes, here an
    injective packing of the two coordinates into one natural number.
    The real routine is not part of this repository. -/
def packPubKey (p : PubKey) : Nat := p.y.toNat * 2 ^ 256 + p.x.toNat

/-- Modelled from the spec: unpackPoint, the inverse of packPubKey. -/
def unpackPubKey (n : Nat) : List Int :=
  [((n % 2 ^ 256 : Nat) : Int), ((n / 2 ^ 256 : Nat) : Int)]

/-- PubKey.serialize (source line 113): the sentinel pair with both
    coordinates equal to 0 is special-cased to the literal "macipk."
    followed by "z", because packPubKey does not support it; otherwise
    the packed bytes are hex encoded after the same marker. -/
def PubKey.serialize (p : PubKey) : String :=
  if p.x = 0 ∧ p.y = 0 then "macipk." ++ "z"
  else "macipk." ++ natToHexString (packPubKey p)

/-- PubKey.unserialize (source line 125): the literal sentinel string
    maps back to the pair of zeros via the asserting constructor; any
    other string has its first 7 code units dropped, the remainder hex
    decoded and unpacked. -/
def PubKey.unserialize (s : String) : Option PubKey :=
  if s = "macipk." ++ "z" then PubKey.mk? [0, 0]
  else
    match hexStringToNat? (strDrop s 7) with
    | some n => PubKey.mk? (unpackPubKey n)
    | none => none

/-- Modelled from the spec: genPubKey from maci-crypto, the
    deterministic derivation of a public key from a private scalar,
    injective on field elements (the bijection invariant of the data
    model); both output coordinates are field elements. -/
def genPubKey (k : Int) : Int × Int :=
  (k % SNARK_FIELD_SIZE, (k * k) % SNARK_FIELD_SIZE)

/-- Modelled from the spec: genEcdhSharedKey from maci-crypto, the
    Diffie-Hellman shared secret of one party's private scalar and the
    other party's public point, symmetric by commutativity of the
    underlying scalar action. -/
def genEcdhSharedKey (k : Int) (pub : Int × Int) : Int :=
  (k * pub.1) % SNARK_FIELD_SIZE

/-- Embedding of the Keypair class: a private key together with the
    public key derived from it. -/
structure Keypair where
  privKey : PrivKey
  pubKey : PubKey
deriving DecidableEq

/-- The Keypair constructor on a given private key (source line 155):
    derives the public key with genPubKey.  The PubKey constructor's
    asserts hold because genPubKey lands in the field (lemma
    genPubKey_lt below), so no Option is needed. -/
def Keypair.create (k : PrivKey) : Keypair :=
  ⟨k, ⟨(genPubKey k.rawPrivKey).1, (genPubKey k.rawPrivKey).2⟩⟩

/-- Keypair.genEcdhSharedKey (source line 172): unwraps both arguments
    and delegates to the external routine. -/
def Keypair.genEcdhSharedKey (privKey : PrivKey) (pubKey : PubKey) : Int :=
  Daisy.genEcdhSharedKey privKey.rawPrivKey (pubKey.x, pubKey.y)

/-- Keypair.equals (source line 179): compares raw private keys and
    both public key coordinates, then asserts the exclusive-or shape
    written in the source; if the assert fails the method does not
    return, modelled as none. -/
def Keypair.equals (a b : Keypair) : Option Bool :=
  let equalPrivKey := decide (a.privKey.rawPrivKey = b.privKey.rawPrivKey)
  let equalPubKey :=
    decide (a.pubKey.x = b.pubKey.x) && decide (a.pubKey.y = b.pubKey.y)
  let x := equalPrivKey && equalPubKey
  let y := !equalPrivKey && !equalPubKey
  if (x && !y) || (!x && y) then some equalPrivKey else none

/-- Embedding of the Message class: an iv and the ciphertext data. -/
structure Message where
  iv : Int
  data : List Int
deriving DecidableEq

/-- The asserting Message constructor (source line 219): the data
    array must have exactly 10 entries. -/
def Message.mk? (iv : Int) (data : List Int) : Option Message :=
  if data.length = 10 then some ⟨iv, data⟩ else none

/-- Modelled from the spec: encrypt from maci-crypto, symmetric
    encryption of a plaintext vector of field elements under a shared
    key, producing an iv and a data vector of the same length; it
    merely inverts to the plaintext reduced into the field. -/
def encrypt (plaintext : List Int) (sharedKey : Int) : Int × List Int :=
  ((sharedKey + 1) % SNARK_FIELD_SIZE,
   plaintext.map fun v => (v + sharedKey) % SNARK_FIELD_SIZE)

/-- Modelled from the spec: decrypt from maci-crypto, the inverse
    transform of encrypt under the same shared key. -/
def decrypt (m : Message) (sharedKey : Int) : List Int :=
  m.data.map fun v => (v - sharedKey) % SNARK_FIELD_SIZE

/-- Modelled from the spec: hash5 from maci-crypto, the fixed 5-ary
    hash, a deterministic function of its input vector. -/
def hash5 (l : List Int) : Int :=
  (l.foldl (fun acc v => acc * 31 + v) 5) % SNARK_FIELD_SIZE

/-- Modelled from the spec: hash11 from maci-crypto, the fixed 11-ary
    hash, a deterministic function of its input vector. -/
def hash11 (l : List Int) : Int :=
  (l.foldl (fun acc v => acc * 31 + v) 11) % SNARK_FIELD_SIZE

/-- Embedding of a Signature from maci-crypto: a point R8 and a
    scalar S, threaded through encode and decode as an opaque pair. -/
structure Signature where
  R8 : Int × Int
  S : Int
deriving DecidableEq

/-- Modelled from the spec: sign from maci-crypto; its output
    components are field elements. -/
def sign (k : Int) (h : Int) : Signature :=
  ⟨((k + h) % SNARK_FIELD_SIZE, (k * h) % SNARK_FIELD_SIZE),
   (k * h + 1) % SNARK_FIELD_SIZE⟩

/-- Embedding of the Command class (source line 372). -/
structure Command where
  stateIndex : Int
  newPubKey : PubKey
  voteOptionIndex : Int
  newVoteWeight : Int
  nonce : Int
  salt : Int
deriving DecidableEq

/-- Command.asArray (source line 408): the 7-element command vector in
    the fixed order stateIndex, both public key coordinates,
    voteOptionIndex, newVoteWeight, nonce, salt. -/
def Command.asArray (c : Command) : List Int :=
  [c.stateIndex] ++ c.newPubKey.asArray ++
    [c.voteOptionIndex, c.newVoteWeight, c.nonce, c.salt]

/-- JS numeric index access on a PubKey object, as written in
    Command.equals (source lines 426 and 427): a PubKey instance has
    no numeric properties (its coordinates live in rawPubKey), so
    newPubKey with index 0 or 1 evaluates to undefined, modelled as
    none. -/
def PubKey.jsIndex (_ : PubKey) (_ : Nat) : Option Int := none

/-- JS loose equality on possibly-undefined bigint values: undefined
    equals undefined, and two defined bigints compare by value. -/
def jsLooseEq : Option Int → Option Int → Bool
  | none, none => true
  | some a, some b => decide (a = b)
  | _, _ => false

/-- Command.equals (source line 423): compares the four scalar fields
    and the salt by value, and compares newPubKey with index 0 and
    index 1 on the PubKey objects themselves, which are undefined on
    both sides, so those two conjuncts are always true. -/
def Command.equals (c other : Command) : Bool :=
  decide (c.stateIndex = other.stateIndex) &&
    jsLooseEq (c.newPubKey.jsIndex 0) (other.newPubKey.jsIndex 0) &&
    jsLooseEq (c.newPubKey.jsIndex 1) (other.newPubKey.jsIndex 1) &&
    decide (c.voteOptionIndex = other.voteOptionIndex) &&
    decide (c.newVoteWeight = other.newVoteWeight) &&
    decide (c.nonce = other.nonce) &&
    decide (c.salt = other.salt)

/-- Command.hash (source line 434): the 11-ary hash of the command
    vector. -/
def Command.hash (c : Command) : Int := Daisy.hash11 c.asArray

/-- Command.sign (source line 441): the external signing routine over
    the command hash. -/
def Command.sign (c : Command) (privKey : PrivKey) : Signature :=
  Daisy.sign privKey.rawPrivKey c.hash

/-- Command.encrypt (source line 468): the plaintext vector is the
    command vector followed by the three signature components; the
    external encryption of that vector supplies the Message iv and
    data.  The Message constructor's length assert holds because the
    plaintext has 7 plus 3 entries and encryption is elementwise. -/
def Command.encrypt (c : Command) (signature : Signature) (sharedKey : Int) : Message :=
  let plaintext := c.asArray ++ [signature.R8.1, signature.R8.2, signature.S]
  let ciphertext := Daisy.encrypt plaintext sharedKey
  ⟨ciphertext.1, ciphertext.2⟩

/-- Command.decrypt (source line 489, static): decrypts the message
    and splits the plaintext vector back into a Command (entries 0 to
    6, with entries 1 and 2 recombined into a PubKey through the
    asserting constructor) and a Signature (entries 7 to 9). -/
def Command.decrypt (message : Message) (sharedKey : Int) :
    Option (Command × Signature) :=
  match Daisy.decrypt message sharedKey with
  | [d0, d1, d2, d3, d4, d5, d6, d7, d8, d9] =>
    (PubKey.mk? [d1, d2]).map fun pk =>
      (⟨d0, pk, d3, d4, d5, d6⟩, ⟨(d7, d8), d9⟩)
  | _ => none

/-- Embedding of the StateLeaf class (source line 265). -/
structure StateLeaf where
  pubKey : PubKey
  voteOptionTreeRoot : Int
  voiceCreditBalance : Int
  nonce : Int
deriving DecidableEq

/-- StateLeaf.genBlankLeaf (source line 295): the pair of zeros as
    public key (the PubKey constructor's asserts hold on 0), the given
    empty vote option tree root, and zero balance and nonce. -/
def StateLeaf.genBlankLeaf (emptyVoteOptionTreeRoot : Int) : StateLeaf :=
  ⟨⟨0, 0⟩, emptyVoteOptionTreeRoot, 0, 0⟩

/-- StateLeaf.asArray (source line 316): both public key coordinates,
    the vote option tree root, the balance and the nonce. -/
def StateLeaf.asArray (l : StateLeaf) : List Int :=
  l.pubKey.asArray ++ [l.voteOptionTreeRoot, l.voiceCreditBalance, l.nonce]

/-- StateLeaf.hash (source line 331): the 5-ary hash of asArray. -/
def StateLeaf.hash (l : StateLeaf) : Int := Daisy.hash5 l.asArray

/-! Helper lemmas shared by the claim theorems. -/

theorem data_append (a b : String) : (a ++ b).data = a.data ++ b.data := rfl

theorem strDrop_append (p t : String) (h : p.data.length = 7) :
    strDrop (p ++ t) 7 = t := by
  unfold strDrop
  rw [data_append, ← h, List.drop_left]

theorem isPrefixOf_append_self (l r : List Char) : l.isPrefixOf (l ++ r) = true := by
  induction l with
  | nil => simp [List.isPrefixOf]
  | cons c cs ih => simp [List.isPrefixOf, ih]

theorem strStartsWith_append (p t : String) : strStartsWith (p ++ t) p = true := by
  unfold strStartsWith
  rw [data_append]
  exact isPrefixOf_append_self p.data t.data

/-- Membership in the field: the range every snark value must lie in. -/
def inField (v : Int) : Prop := 0 ≤ v ∧ v < SNARK_FIELD_SIZE

instance inField_decidable (v : Int) : Decidable (inField v) :=
  inferInstanceAs (Decidable (0 ≤ v ∧ v < SNARK_FIELD_SIZE))

theorem emod_inField (v : Int) : inField (v % SNARK_FIELD_SIZE) :=
  ⟨Int.emod_nonneg v (by decide), Int.emod_lt_of_pos v SNARK_FIELD_SIZE_pos⟩

theorem genPubKey_lt (k : Int) :
    (genPubKey k).1 < SNARK_FIELD_SIZE ∧ (genPubKey k).2 < SNARK_FIELD_SIZE :=
  ⟨(emod_inField k).2, (emod_inField (k * k)).2⟩

theorem sign_inField (k h : Int) :
    inField (Daisy.sign k h).R8.1 ∧ inField (Daisy.sign k h).R8.2 ∧
      inField (Daisy.sign k h).S :=
  ⟨emod_inField _, emod_inField _, emod_inField _⟩

/-- One ciphertext element decrypted under the encrypting key gives
    back the plaintext element, provided it was a field element. -/
theorem encrypt_decrypt_elem (key v : Int) (h0 : 0 ≤ v) (h1 : v < SNARK_FIELD_SIZE) :
    ((v + key) % SNARK_FIELD_SIZE - key) % SNARK_FIELD_SIZE = v := by
  have h2 : ((v + key) % SNARK_FIELD_SIZE - key) % SNARK_FIELD_SIZE
      = (v + key - key) % SNARK_FIELD_SIZE := by
    rw [Int.sub_emod, Int.emod_emod_of_dvd _ dvd_rfl, ← Int.sub_emod]
  rw [h2, add_sub_cancel_right, Int.emod_eq_of_lt h0 h1]

theorem ecdh_symm (a b : Int) :
    Daisy.genEcdhSharedKey a (genPubKey b) = Daisy.genEcdhSharedKey b (genPubKey a) := by
  unfold Daisy.genEcdhSharedKey genPubKey
  have ha : (a * (b % SNARK_FIELD_SIZE)) % SNARK_FIELD_SIZE
      = (a * b) % SNARK_FIELD_SIZE := by
    rw [Int.mul_emod, Int.emod_emod_of_dvd _ dvd_rfl, ← Int.mul_emod]
  have hb : (b * (a % SNARK_FIELD_SIZE)) % SNARK_FIELD_SIZE
      = (b * a) % SNARK_FIELD_SIZE := by
    rw [Int.mul_emod, Int.emod_emod_of_dvd _ dvd_rfl, ← Int.mul_emod]
  simp only [ha, hb, mul_comm]

/-- Encrypting a command with a signature and decrypting under the
    same shared key restores both exactly, whenever the command vector
    consists of field elements. -/
theorem encrypt_decrypt_aux (c : Command) (s : Signature) (key : Int)
    (hb : ∀ v ∈ c.asArray, inField v)
    (hr1 : inField s.R8.1) (hr2 : inField s.R8.2) (hS : inField s.S) :
    Command.decrypt (c.encrypt s key) key = some (c, s) := by
  have h0 : inField c.stateIndex := hb _ (by simp [Command.asArray, PubKey.asArray])
  have h1 : inField c.newPubKey.x := hb _ (by simp [Command.asArray, PubKey.asArray])
  have h2 : inField c.newPubKey.y := hb _ (by simp [Command.asArray, PubKey.asArray])
  have h3 : inField c.voteOptionIndex := hb _ (by simp [Command.asArray, PubKey.asArray])
  have h4 : inField c.newVoteWeight := hb _ (by simp [Command.asArray, PubKey.asArray])
  have h5 : inField c.nonce := hb _ (by simp [Command.asArray, PubKey.asArray])
  have h6 : inField c.salt := hb _ (by simp [Command.asArray, PubKey.asArray])
  simp only [Command.encrypt, Command.decrypt, Daisy.encrypt, Daisy.decrypt,
    Command.asArray, PubKey.asArray, List.cons_append, List.nil_append,
    List.map_cons, List.map_nil]
  rw [encrypt_decrypt_elem key _ h0.1 h0.2, encrypt_decrypt_elem key _ h1.1 h1.2,
    encrypt_decrypt_elem key _ h2.1 h2.2, encrypt_decrypt_elem key _ h3.1 h3.2,
    encrypt_decrypt_elem key _ h4.1 h4.2, encrypt_decrypt_elem key _ h5.1 h5.2,
    encrypt_decrypt_elem key _ h6.1 h6.2, encrypt_decrypt_elem key _ hr1.1 hr1.2,
    encrypt_decrypt_elem key _ hr2.1 hr2.2, encrypt_decrypt_elem key _ hS.1 hS.2]
  have hmk : PubKey.mk? [c.newPubKey.x, c.newPubKey.y]
      = some ⟨c.newPubKey.x, c.newPubKey.y⟩ := by
    simp [PubKey.mk?, h1.2, h2.2]
  rw [hmk]
  rfl

/-! Claim theorems. -/

/-- C1: for every Command made of field elements and all key pairs A
    and B built from private scalars a and b, the two ECDH shared keys
    agree, and Command.decrypt of Command.encrypt of the command with
    its signature under one shared key, taken under the complementary
    shared key, returns exactly the command and the signature, with
    Command.equals true on the command.  The external crypto routines
    are the spec-modelled ones above. -/
theorem C1_encrypt_decrypt_ecdh (c : Command) (a b : Int)
    (hb : ∀ v ∈ c.asArray, inField v) :
    Keypair.genEcdhSharedKey (Keypair.create ⟨a⟩).privKey (Keypair.create ⟨b⟩).pubKey
      = Keypair.genEcdhSharedKey (Keypair.create ⟨b⟩).privKey (Keypair.create ⟨a⟩).pubKey ∧
    Command.decrypt
      (c.encrypt (c.sign (Keypair.create ⟨a⟩).privKey)
        (Keypair.genEcdhSharedKey (Keypair.create ⟨a⟩).privKey (Keypair.create ⟨b⟩).pubKey))
      (Keypair.genEcdhSharedKey (Keypair.create ⟨b⟩).privKey (Keypair.create ⟨a⟩).pubKey)
      = some (c, c.sign (Keypair.create ⟨a⟩).privKey) ∧
    Command.equals c c = true := by
  have hsym : Keypair.genEcdhSharedKey (Keypair.create ⟨a⟩).privKey (Keypair.create ⟨b⟩).pubKey
      = Keypair.genEcdhSharedKey (Keypair.create ⟨b⟩).privKey (Keypair.create ⟨a⟩).pubKey := by
    have h := ecdh_symm a b
    simpa [Keypair.genEcdhSharedKey, Keypair.create] using h
  refine ⟨hsym, ?_, ?_⟩
  · rw [← hsym]
    exact encrypt_decrypt_aux c _ _ hb (sign_inField _ _).1 (sign_inField _ _).2.1
      (sign_inField _ _).2.2
  · simp [Command.equals, jsLooseEq, PubKey.jsIndex]

theorem C1_witness :
    (∀ v ∈ (Command.mk 1 ⟨2, 3⟩ 4 5 6 7).asArray, inField v) ∧
    (Keypair.genEcdhSharedKey (Keypair.create ⟨11⟩).privKey (Keypair.create ⟨13⟩).pubKey
       = Keypair.genEcdhSharedKey (Keypair.create ⟨13⟩).privKey (Keypair.create ⟨11⟩).pubKey ∧
     Command.decrypt
       ((Command.mk 1 ⟨2, 3⟩ 4 5 6 7).encrypt
         ((Command.mk 1 ⟨2, 3⟩ 4 5 6 7).sign (Keypair.create ⟨11⟩).privKey)
         (Keypair.genEcdhSharedKey (Keypair.create ⟨11⟩).privKey (Keypair.create ⟨13⟩).pubKey))
       (Keypair.genEcdhSharedKey (Keypair.create ⟨13⟩).privKey (Keypair.create ⟨11⟩).pubKey)
       = some (Command.mk 1 ⟨2, 3⟩ 4 5 6 7,
           (Command.mk 1 ⟨2, 3⟩ 4 5 6 7).sign (Keypair.create ⟨11⟩).privKey) ∧
     Command.equals (Command.mk 1 ⟨2, 3⟩ 4 5 6 7) (Command.mk 1 ⟨2, 3⟩ 4 5 6 7) = true) :=
  ⟨by decide, C1_encrypt_decrypt_ecdh (Command.mk 1 ⟨2, 3⟩ 4 5 6 7) 11 13 (by decide)⟩

/-- C2: the claim is contradicted by the code.  Command.equals indexes
    the PubKey objects themselves (newPubKey with index 0 and 1, source
    lines 426 and 427) instead of their rawPubKey coordinates, so both
    pubkey conjuncts compare undefined with undefined and are always
    true: two commands that differ only in the public key coordinates
    compare equal, against the claim that equals is then false. -/
theorem C2_equals_ignores_newPubKey :
    Command.equals (Command.mk 1 ⟨1, 2⟩ 3 4 5 6) (Command.mk 1 ⟨20, 21⟩ 3 4 5 6) = true := by
  decide

/-- C3 counterexample: the claim that PrivKey.unserialize fails on
    every string lacking the "macisk." marker is false: the source
    never checks the marker, it only slices off 7 code units, so the
    string of seven zeros followed by "ff" unserializes to the key
    255. -/
theorem C3_counterexample :
    strStartsWith "0000000ff" "macisk." = false ∧
    PrivKey.unserialize "0000000ff" = some ⟨255⟩ := by
  constructor
  · decide
  · decide

/-- C3 amended: PrivKey.unserialize ignores what the first 7 code
    units are: for any 7-unit head and any remainder that parses as
    hex it succeeds with the parsed value, and it fails exactly when
    what follows the first 7 units is not valid nonempty hex. -/
theorem C3_amended :
    (∀ (p t : String) (v : Nat), p.data.length = 7 → hexStringToNat? t = some v →
      PrivKey.unserialize (p ++ t) = some ⟨(v : Int)⟩) ∧
    (∀ s : String, hexStringToNat? (strDrop s 7) = none → PrivKey.unserialize s = none) := by
  constructor
  · intro p t v hp ht
    unfold PrivKey.unserialize
    rw [strDrop_append p t hp, ht]
    rfl
  · intro s hs
    unfold PrivKey.unserialize
    rw [hs]
    rfl

theorem C3_amended_witness :
    ("0000000" : String).data.length = 7 ∧ hexStringToNat? "ff" = some 255 ∧
    PrivKey.unserialize ("0000000" ++ "ff") = some ⟨((255 : Nat) : Int)⟩ ∧
    hexStringToNat? (strDrop "macisk." 7) = none ∧
    PrivKey.unserialize "macisk." = none :=
  ⟨by decide, by decide, C3_amended.1 "0000000" "ff" 255 (by decide) (by decide),
   by decide, C3_amended.2 "macisk." (by decide)⟩

/-- C4: two Keypairs created from the same private key have equal
    public keys and equals returns true; created from different
    private scalars in the field, equals returns false and the public
    keys differ; and whenever private-key equality and public-key
    equality disagree on any two Keypairs, equals hits its assert and
    does not return a boolean (none).  Public-key derivation is the
    spec-modelled genPubKey. -/
theorem C4_keypair_invariant :
    (∀ k : Int,
      (Keypair.create ⟨k⟩).pubKey = (Keypair.create ⟨k⟩).pubKey ∧
      Keypair.equals (Keypair.create ⟨k⟩) (Keypair.create ⟨k⟩) = some true) ∧
    (∀ k1 k2 : Int, 0 ≤ k1 → k1 < SNARK_FIELD_SIZE → 0 ≤ k2 → k2 < SNARK_FIELD_SIZE →
      k1 ≠ k2 →
      Keypair.equals (Keypair.create ⟨k1⟩) (Keypair.create ⟨k2⟩) = some false ∧
      (Keypair.create ⟨k1⟩).pubKey ≠ (Keypair.create ⟨k2⟩).pubKey) ∧
    (∀ a b : Keypair,
      decide (a.privKey.rawPrivKey = b.privKey.rawPrivKey)
        ≠ (decide (a.pubKey.x = b.pubKey.x) && decide (a.pubKey.y = b.pubKey.y)) →
      Keypair.equals a b = none) := by
  refine ⟨?_, ?_, ?_⟩
  · intro k
    exact ⟨rfl, by simp [Keypair.equals]⟩
  · intro k1 k2 h01 h11 h02 h12 hne
    have e1 : k1 % SNARK_FIELD_SIZE = k1 := Int.emod_eq_of_lt h01 h11
    have e2 : k2 % SNARK_FIELD_SIZE = k2 := Int.emod_eq_of_lt h02 h12
    constructor
    · simp [Keypair.equals, Keypair.create, genPubKey, e1, e2, hne]
    · intro h
      have hx : k1 % SNARK_FIELD_SIZE = k2 % SNARK_FIELD_SIZE := congrArg PubKey.x h
      rw [e1, e2] at hx
      exact hne hx
  · intro a b hne
    simp only [Keypair.equals]
    cases hp : decide (a.privKey.rawPrivKey = b.privKey.rawPrivKey) with
    | false =>
      cases hq : (decide (a.pubKey.x = b.pubKey.x) && decide (a.pubKey.y = b.pubKey.y)) with
      | false => rw [hp, hq] at hne; exact absurd rfl hne
      | true => simp [hp, hq]
    | true =>
      cases hq : (decide (a.pubKey.x = b.pubKey.x) && decide (a.pubKey.y = b.pubKey.y)) with
      | false => simp [hp, hq]
      | true => rw [hp, hq] at hne; exact absurd rfl hne

theorem C4_witness :
    (Keypair.equals (Keypair.create ⟨5⟩) (Keypair.create ⟨5⟩) = some true) ∧
    ((0 : Int) ≤ 5 ∧ (5 : Int) < SNARK_FIELD_SIZE ∧ (0 : Int) ≤ 9 ∧
      (9 : Int) < SNARK_FIELD_SIZE ∧ (5 : Int) ≠ 9) ∧
    (Keypair.equals (Keypair.create ⟨5⟩) (Keypair.create ⟨9⟩) = some false ∧
      (Keypair.create ⟨5⟩).pubKey ≠ (Keypair.create ⟨9⟩).pubKey) ∧
    (decide ((Keypair.mk ⟨1⟩ ⟨1, 1⟩).privKey.rawPrivKey
        = (Keypair.mk ⟨1⟩ ⟨2, 1⟩).privKey.rawPrivKey)
      ≠ (decide ((Keypair.mk ⟨1⟩ ⟨1, 1⟩).pubKey.x = (Keypair.mk ⟨1⟩ ⟨2, 1⟩).pubKey.x) &&
         decide ((Keypair.mk ⟨1⟩ ⟨1, 1⟩).pubKey.y = (Keypair.mk ⟨1⟩ ⟨2, 1⟩).pubKey.y))) ∧
    Keypair.equals (Keypair.mk ⟨1⟩ ⟨1, 1⟩) (Keypair.mk ⟨1⟩ ⟨2, 1⟩) = none :=
  ⟨(C4_keypair_invariant.1 5).2, by decide,
   C4_keypair_invariant.2.1 5 9 (by decide) (by decide) (by decide) (by decide) (by decide),
   by decide,
   C4_keypair_invariant.2.2 (Keypair.mk ⟨1⟩ ⟨1, 1⟩) (Keypair.mk ⟨1⟩ ⟨2, 1⟩) (by decide)⟩

/-- C5: PrivKey.isValidSerializedPrivKey is true exactly when the
    string starts with "macisk." and the remainder after the first 7
    code units parses as hex (equivalently, unserialize succeeds) with
    a value strictly below SNARK_FIELD_SIZE; it is a total boolean
    function, so it never throws, a parse failure counting as
    invalid. -/
theorem C5_isValid_iff (s : String) :
    PrivKey.isValidSerializedPrivKey s = true ↔
      (strStartsWith s "macisk." = true ∧
       ∃ k : PrivKey, PrivKey.unserialize s = some k ∧ k.rawPrivKey < SNARK_FIELD_SIZE) := by
  unfold PrivKey.isValidSerializedPrivKey PrivKey.unserialize
  cases h : hexStringToNat? (strDrop s 7) with
  | none => simp [h]
  | some v => simp [h, Bool.and_eq_true]

/-- C6: for every field scalar, serialize produces "macisk." followed
    by the lowercase hex of the scalar, and unserialize of that string
    restores exactly the same raw private key. -/
theorem C6_serialize_roundtrip (k : Int) (h0 : 0 ≤ k) (h1 : k < SNARK_FIELD_SIZE) :
    PrivKey.serialize ⟨k⟩ = "macisk." ++ natToHexString k.toNat ∧
    PrivKey.unserialize (PrivKey.serialize ⟨k⟩) = some ⟨k⟩ := by
  have hser : PrivKey.serialize ⟨k⟩ = "macisk." ++ natToHexString k.toNat := by
    unfold PrivKey.serialize intToHexString
    rw [if_neg (not_lt.mpr h0)]
  refine ⟨hser, ?_⟩
  rw [hser]
  unfold PrivKey.unserialize
  rw [strDrop_append _ _ (by decide), hexStringToNat_natToHexString]
  simp [Int.toNat_of_nonneg h0]

theorem C6_witness :
    (0 : Int) ≤ 5 ∧ (5 : Int) < SNARK_FIELD_SIZE ∧
    (PrivKey.serialize ⟨5⟩ = "macisk." ++ natToHexString (5 : Int).toNat ∧
     PrivKey.unserialize (PrivKey.serialize ⟨5⟩) = some ⟨5⟩) :=
  ⟨by decide, by decide, C6_serialize_roundtrip 5 (by decide) (by decide)⟩

/-- C7: serialize on the zero public key returns exactly the literal
    "macipk.z" through the sentinel branch, unserialize of that
    literal returns the zero public key, and the round trip on the
    sentinel reproduces it. -/
theorem C7_zero_sentinel :
    PubKey.serialize ⟨0, 0⟩ = "macipk.z" ∧
    PubKey.unserialize "macipk.z" = some ⟨0, 0⟩ ∧
    PubKey.unserialize (PubKey.serialize ⟨0, 0⟩) = some ⟨0, 0⟩ := by
  refine ⟨by decide, by decide, by decide⟩

/-- C8: genBlankLeaf of any root has the zero public key, the given
    root, zero balance and zero nonce; its hash is the 5-ary hash of
    the array of the two coordinates, root, balance and nonce; and two
    calls with equal roots hash identically. -/
theorem C8_blank_leaf (r : Int) :
    (StateLeaf.genBlankLeaf r).pubKey = ⟨0, 0⟩ ∧
    (StateLeaf.genBlankLeaf r).voteOptionTreeRoot = r ∧
    (StateLeaf.genBlankLeaf r).voiceCreditBalance = 0 ∧
    (StateLeaf.genBlankLeaf r).nonce = 0 ∧
    (StateLeaf.genBlankLeaf r).hash = hash5 [0, 0, r, 0, 0] ∧
    (∀ r2 : Int, r = r2 →
      (StateLeaf.genBlankLeaf r).hash = (StateLeaf.genBlankLeaf r2).hash) := by
  refine ⟨rfl, rfl, rfl, rfl, rfl, ?_⟩
  intro r2 h
  rw [h]

theorem C8_witness :
    (StateLeaf.genBlankLeaf 3).pubKey = ⟨0, 0⟩ ∧
    (StateLeaf.genBlankLeaf 3).voteOptionTreeRoot = 3 ∧
    (StateLeaf.genBlankLeaf 3).voiceCreditBalance = 0 ∧
    (StateLeaf.genBlankLeaf 3).nonce = 0 ∧
    (StateLeaf.genBlankLeaf 3).hash = hash5 [0, 0, 3, 0, 0] ∧
    (StateLeaf.genBlankLeaf 3).hash = (StateLeaf.genBlankLeaf 3).hash :=
  ⟨(C8_blank_leaf 3).1, (C8_blank_leaf 3).2.1, (C8_blank_leaf 3).2.2.1,
   (C8_blank_leaf 3).2.2.2.1, (C8_blank_leaf 3).2.2.2.2.1,
   (C8_blank_leaf 3).2.2.2.2.2 3 rfl⟩

/-- C9: the PubKey constructor checks only the upper bound of each of
    the two entries, so every two-element array whose entries are each
    below SNARK_FIELD_SIZE is accepted, negative entries included; no
    nonnegativity check exists. -/
theorem C9_pubkey_upper_bound_only (x y : Int)
    (hx : x < SNARK_FIELD_SIZE) (hy : y < SNARK_FIELD_SIZE) :
    PubKey.mk? [x, y] = some ⟨x, y⟩ := by
  have hdef : PubKey.mk? [x, y]
      = if x < SNARK_FIELD_SIZE ∧ y < SNARK_FIELD_SIZE then some ⟨x, y⟩ else none := rfl
  rw [hdef, if_pos (And.intro hx hy)]

theorem C9_witness :
    ((-1 : Int) < SNARK_FIELD_SIZE) ∧ ((-22 : Int) < SNARK_FIELD_SIZE) ∧
    PubKey.mk? [(-1 : Int), (-22 : Int)] = some ⟨-1, -22⟩ :=
  ⟨by decide, by decide, C9_pubkey_upper_bound_only (-1) (-22) (by decide) (by decide)⟩

/-- C10: PrivKey.unserialize performs no field-range check: for any
    hex remainder encoding a value at least SNARK_FIELD_SIZE, it still
    succeeds and returns that raw value, while
    isValidSerializedPrivKey is false on the very same string. -/
theorem C10_unserialize_no_range_check (t : String) (v : Nat)
    (ht : hexStringToNat? t = some v) (hv : SNARK_FIELD_SIZE ≤ (v : Int)) :
    PrivKey.unserialize ("macisk." ++ t) = some ⟨(v : Int)⟩ ∧
    PrivKey.isValidSerializedPrivKey ("macisk." ++ t) = false := by
  constructor
  · unfold PrivKey.unserialize
    rw [strDrop_append _ _ (by decide), ht]
    rfl
  · unfold PrivKey.isValidSerializedPrivKey
    rw [strDrop_append _ _ (by decide), ht]
    simp [not_lt.mpr hv]

theorem C10_witness :
    hexStringToNat? (natToHexString SNARK_FIELD_SIZE_N) = some SNARK_FIELD_SIZE_N ∧
    SNARK_FIELD_SIZE ≤ ((SNARK_FIELD_SIZE_N : Nat) : Int) ∧
    (PrivKey.unserialize ("macisk." ++ natToHexString SNARK_FIELD_SIZE_N)
       = some ⟨((SNARK_FIELD_SIZE_N : Nat) : Int)⟩ ∧
     PrivKey.isValidSerializedPrivKey ("macisk." ++ natToHexString SNARK_FIELD_SIZE_N)
       = false) :=
  ⟨hexStringToNat_natToHexString SNARK_FIELD_SIZE_N,
   le_of_eq SNARK_FIELD_SIZE_eq_cast.symm,
   C10_unserialize_no_range_check (natToHexString SNARK_FIELD_SIZE_N) SNARK_FIELD_SIZE_N
     (hexStringToNat_natToHexString SNARK_FIELD_SIZE_N)
     (le_of_eq SNARK_FIELD_SIZE_eq_cast.symm)⟩

end Daisy
